import Mathlib

/- Shallow embedding of the Smart Desktop Activity Tracker's activity-event
pipeline and automation trigger engine, translated from
src/client/src/lib/automationManager.ts, src/client/src/lib/activityTracker.ts,
src/server/modules/automationManager.ts and src/server/storage.ts. -/

namespace SmartTracker

/-- ASCII-space trimming, the part of JS `Number`'s whitespace handling that
trigger values can exercise (they only ever contain the plain space). -/
def trimChars (cs : List Char) : List Char :=
  ((cs.dropWhile (fun c => c == ' ')).reverse.dropWhile (fun c => c == ' ')).reverse

/-- Decimal digit accumulation; `none` as soon as a non-digit occurs. -/
def natFromDigits : List Char → Nat → Option Nat
  | [], acc => some acc
  | c :: rest, acc =>
    if c.isDigit then natFromDigits rest (10 * acc + (c.toNat - 48)) else none

/-- JS `Number(s)` for the decimal-integer and malformed string forms that
trigger values take in this codebase: `none` stands for NaN (and also for the
`undefined` produced by out-of-range array destructuring); every comparison or
arithmetic operation involving `none` yields a non-match, as NaN/undefined do
in JS. JS `Number` of an empty or all-whitespace string is 0. Fractional,
exponent and hex numerals do not occur as trigger values and are not modelled. -/
def jsNumber (s : String) : Option Int :=
  match trimChars s.data with
  | [] => some 0
  | c :: rest =>
    if c == '-' then
      match rest, natFromDigits rest 0 with
      | _ :: _, some n => some (-(n : Int))
      | _, _ => none
    else
      match natFromDigits (c :: rest) 0 with
      | some n => some ((n : Int))
      | none => none

/-- `str.split(sep)` for a single-character separator (the trigger formats
only split on ":" and ","). -/
def splitChars (sep : Char) : List Char → List (List Char)
  | [] => [[]]
  | c :: rest =>
    match splitChars sep rest with
    | g :: gs => if c == sep then [] :: g :: gs else (c :: g) :: gs
    | [] => [[c]]

/-- `str.split(sep).map(Number)`, the trigger-value parsing idiom. -/
def parseNums (sep : Char) (s : String) : List (Option Int) :=
  (splitChars sep s.data).map (fun cs => jsNumber (String.mk cs))

/-- Array-destructuring access into the parsed numbers: a missing element is
`undefined`, folded into `none` together with NaN. -/
def getIdx (l : List (Option Int)) (i : Nat) : Option Int :=
  (l.get? i).bind id

/-- JS `o === n` where `o` may be NaN or undefined (`none`), in which case the
comparison is false. -/
def numEq (o : Option Int) (n : Int) : Bool :=
  o == some n

/-- JS `Math.abs (v - o) <= tol` with NaN/undefined propagating to false. -/
def numAbsLe (v : Int) (o : Option Int) (tol : Nat) : Bool :=
  match o with
  | some x => decide ((v - x).natAbs ≤ tol)
  | none => false

/-- JS `a <= b` on possibly-NaN/undefined values: false when either is `none`. -/
def numLe (a b : Option Int) : Bool :=
  match a, b with
  | some a, some b => decide (a ≤ b)
  | _, _ => false

/-- NaN/undefined-propagating addition. -/
def numAdd (a b : Option Int) : Option Int :=
  match a, b with
  | some a, some b => some (a + b)
  | _, _ => none

/-- JS truthiness of a possibly-absent string (the empty string is falsy). -/
def strTruthy : Option String → Bool
  | some s => s != ""
  | none => false

/-- One observed user-activity record. Optional fields model JS properties
that are absent (`undefined`) on events of other kinds; `timestamp` is wall
clock in minutes since the epoch (a JS `Date` is always truthy, so presence is
exactly the `Option`). -/
structure Activity where
  type : String := ""
  timestamp : Option Nat := none
  text : Option String := none
  key : Option String := none
  isSpecialKey : Bool := false
  x : Option Int := none
  y : Option Int := none
  mousePosition : Option (Int × Int) := none
  name : Option String := none
  textDataApplicationName : Option String := none
deriving DecidableEq

/-- `Date.getHours()` of a minutes-since-epoch wall-clock value. -/
def getHours (t : Nat) : Nat := t / 60 % 24

/-- `Date.getMinutes()` of a minutes-since-epoch wall-clock value. -/
def getMinutes (t : Nat) : Nat := t % 60

/-- A trigger as stored on an automation task: `{type, value}`. -/
structure Trigger where
  type : String
  value : String
deriving DecidableEq

/-- An automation task (client `AutomationTask` interface; the client type has
no last-execution timestamp field at all). -/
structure AutomationTask where
  id : Nat
  name : String := ""
  description : String := ""
  steps : List String := []
  triggers : List Trigger := []
  executionCount : Nat := 0
  isActive : Bool := true
deriving DecidableEq

/-- A stored suggestion; `metadataType`/`metadataSubtype` are the dynamically
attached `metadata` fields that form the dedup key (the spec's
`detectorType`/`detectorKey`). -/
structure Suggestion where
  id : Nat
  title : String
  description : String
  confidence : ℚ
  activities : List Activity
  createdAt : Nat
  metadataType : String
  metadataSubtype : String
deriving DecidableEq

/-- Last `n` elements of a list, as JS `slice(-n)` on an array longer than
`n`; on shorter arrays it is the whole list. -/
def lastN (n : Nat) (l : List α) : List α :=
  l.drop (l.length - n)

/-- The history append-and-trim step at the top of `checkForPatterns`
(client automationManager.ts lines 59-66, `historyMaxLength = 1000`):
push, then `slice(-1000)` when the length exceeds 1000. -/
def pushHistory (h : List Activity) (a : Activity) : List Activity :=
  let h2 := h ++ [a]
  if h2.length > 1000 then lastN 1000 h2 else h2

/-- Folding the `checkForPatterns` history step over a full arrival sequence,
starting from the empty history. -/
def historyAfter (evs : List Activity) : List Activity :=
  evs.foldl pushHistory []

/-- The payload a detector hands to `createSuggestion`. -/
structure SuggestionData where
  title : String
  description : String
  confidence : ℚ
  activities : List Activity
  type : String
  subtype : String
deriving DecidableEq

/-- The suggestion object built inside `createSuggestion` (client
automationManager.ts lines 285-298): id and creation time come from the
ambient clock (`Date.now()` / `new Date()`), and the detector metadata
`{type, subtype}` is attached to the object. -/
def mkSuggestion (now : Nat) (d : SuggestionData) : Suggestion :=
  { id := now, title := d.title, description := d.description,
    confidence := d.confidence, activities := d.activities, createdAt := now,
    metadataType := d.type, metadataSubtype := d.subtype }

/-- `createSuggestion` (client automationManager.ts lines 277-310): push the
new suggestion at the tail, then `shift()` the oldest one out when more than
10 are stored. -/
def createSuggestion (now : Nat) (sugs : List Suggestion) (d : SuggestionData) :
    List Suggestion :=
  let s2 := sugs ++ [mkSuggestion now d]
  if s2.length > 10 then s2.drop 1 else s2

/-- `hasExistingSuggestion` (client automationManager.ts lines 315-320). -/
def hasExistingSuggestion (sugs : List Suggestion) (ty sub : String) : Bool :=
  sugs.any (fun s => s.metadataType == ty && s.metadataSubtype == sub)

/-- The check-then-create step as the detectors perform it:
`detectRepeatedSequence` skips a candidate whose `(type, subtype)` key is
already stored (lines 129-131) and `detectApplicationPatterns` does the same
(lines 194-196); otherwise the candidate goes to `createSuggestion`. -/
def submitCandidate (now : Nat) (sugs : List Suggestion) (d : SuggestionData) :
    List Suggestion :=
  if hasExistingSuggestion sugs d.type d.subtype then sugs
  else createSuggestion now sugs d

/-- Number of stored suggestions carrying a given dedup key. -/
def keyCount (sugs : List Suggestion) (ty sub : String) : Nat :=
  (sugs.filter (fun s => s.metadataType == ty && s.metadataSubtype == sub)).length

def d0ex : SuggestionData :=
  ⟨"a", "b", 0.5, [], "ty", "k"⟩

def d1ex : SuggestionData :=
  ⟨"c", "d", 0.6, [], "ty2", "k2"⟩

/-- One step of the type-count accumulation in `detectRepeatedSequence`
(client automationManager.ts lines 112-123): a type seen for the first time is
appended with count 1 (JS object property insertion order for string keys),
an already-seen type is bumped. -/
def bumpCount (counts : List (String × Nat)) (ty : String) : List (String × Nat) :=
  if counts.any (fun p => p.1 == ty) then
    counts.map (fun p => if p.1 = ty then (p.1, p.2 + 1) else p)
  else counts ++ [(ty, 1)]

/-- The `typeCounts` object of `detectRepeatedSequence`: occurrences per
activity kind over the window, skipping activities with a falsy `type`;
`Object.entries` later enumerates it in insertion order. -/
def typeCounts (acts : List Activity) : List (String × Nat) :=
  acts.foldl (fun c a => if a.type = "" then c else bumpCount c a.type) []

/-- The body of the `Object.entries(typeCounts)` loop of
`detectRepeatedSequence` (lines 126-156) for one `(type, count)` entry:
count at least 3, dedup check, then the `keyboard`-with-text and `mouse_click`
special cases; any other kind falls through without emitting. -/
def repeatedStep (now : Nat) (recent : List Activity) (sugs : List Suggestion)
    (entry : String × Nat) : List Suggestion :=
  if entry.2 ≥ 3 then
    if hasExistingSuggestion sugs "repeated_sequence" entry.1 then sugs
    else
      let activities := recent.filter (fun a => a.type == entry.1)
      if entry.1 == "keyboard" && activities.any (fun a => strTruthy a.text) then
        createSuggestion now sugs
          ⟨"Repeated Text Input",
           "You\x27ve typed similar text multiple times. Would you like to create a template?",
           0.7, activities, "repeated_sequence", entry.1⟩
      else if entry.1 == "mouse_click" then
        createSuggestion now sugs
          ⟨"Repeated Clicks Detected",
           "You\x27ve clicked in the same area multiple times. Want to automate this?",
           0.6, activities, "repeated_sequence", entry.1⟩
      else sugs
  else sugs

/-- `detectRepeatedSequence` (lines 108-157): look at the last 20 activities,
count kinds, then run the per-entry loop over the live suggestion store. -/
def detectRepeatedSequence (now : Nat) (history : List Activity)
    (sugs : List Suggestion) : List Suggestion :=
  let recentActivities := lastN 20 history
  (typeCounts recentActivities).foldl (repeatedStep now recentActivities) sugs

/-- `detectTimeBasedPatterns` (lines 162-165) has an empty body. -/
def detectTimeBasedPatterns (sugs : List Suggestion) : List Suggestion :=
  sugs

/-- The `appActivities` filter of `detectApplicationPatterns` (lines 172-174):
`application` events, plus `screen_capture` events whose
`textData.applicationName` is truthy. -/
def isAppActivity (a : Activity) : Bool :=
  a.type == "application"
    || (a.type == "screen_capture" && strTruthy a.textDataApplicationName)

/-- The per-activity application name (lines 182-184). -/
def appNameOf (a : Activity) : Option String :=
  if a.type == "application" then a.name else a.textDataApplicationName

/-- The name as the `if (appName && ...)` guard sees it: `none` when absent or
falsy (empty). -/
def truthyName (a : Activity) : Option String :=
  match appNameOf a with
  | some s => if s = "" then none else some s
  | none => none

/-- The backward scan of `detectApplicationPatterns` (lines 179-189): walk the
filtered app activities from most recent to oldest (the argument list is the
reverse of `appActivities`), collecting distinct truthy names while fewer than
3 have been collected. -/
def collectApps : List Activity → List String → List String
  | [], acc => acc
  | a :: rest, acc =>
    if acc.length < 3 then
      match truthyName a with
      | some s =>
        if s ∈ acc then collectApps rest acc else collectApps rest (acc ++ [s])
      | none => collectApps rest acc
    else acc

/-- The `recentApps` list the detector ends its scan with. -/
def recentAppsOf (history : List Activity) : List String :=
  collectApps (history.filter isAppActivity).reverse []

/-- `detectApplicationPatterns` (lines 170-207). -/
def detectApplicationPatterns (now : Nat) (history : List Activity)
    (sugs : List Suggestion) : List Suggestion :=
  let appActivities := history.filter isAppActivity
  if appActivities.length < 3 then sugs
  else
    let recentApps := collectApps appActivities.reverse []
    if recentApps.length = 3 then
      let sequenceKey := String.intercalate "," recentApps
      if hasExistingSuggestion sugs "app_sequence" sequenceKey then sugs
      else
        createSuggestion now sugs
          ⟨"Application Sequence",
           "You often open " ++ String.intercalate ", " recentApps
             ++ " together. Create a workflow?",
           0.65, lastN 5 appActivities, "app_sequence", sequenceKey⟩
    else sugs

/-- `detectPatterns` (lines 92-103): requires at least 10 activities of
history, then runs the three detectors in order over the shared store. -/
def detectPatterns (now : Nat) (history : List Activity)
    (sugs : List Suggestion) : List Suggestion :=
  if history.length < 10 then sugs
  else
    detectApplicationPatterns now history
      (detectTimeBasedPatterns (detectRepeatedSequence now history sugs))

/-- All truthy application names visible to the backward scan, oldest first. -/
def appNames (history : List Activity) : List String :=
  (history.filter isAppActivity).filterMap truthyName

def appActEx (s : String) : Activity :=
  { type := "application", name := some s }

def histEx : List Activity :=
  [appActEx "A", appActEx "B", appActEx "C"]

/-- The client-side per-trigger check inside `checkTriggers` (client
automationManager.ts lines 218-264). The `time` case compares the *ambient
wall clock* (`new Date()`), passed here as `now` in minutes since the epoch,
against the trigger value — it never looks at the incoming activity; the other
cases inspect the activity. A trigger kind outside the switch leaves
`shouldTrigger` untouched, i.e. never matches. -/
def clientTriggerMatches (now : Nat) (a : Activity) (tr : Trigger) : Bool :=
  if tr.type == "time" then
    numEq (getIdx (parseNums ':' tr.value) 0) (Int.ofNat (getHours now))
      && numEq (getIdx (parseNums ':' tr.value) 1) (Int.ofNat (getMinutes now))
  else if tr.type == "mouse" then
    if a.type == "screen_capture" then
      match a.mousePosition with
      | some pos =>
        numAbsLe pos.1 (getIdx (parseNums ',' tr.value) 0) 20
          && numAbsLe pos.2 (getIdx (parseNums ',' tr.value) 1) 20
      | none => false
    else false
  else if tr.type == "keyboard" then
    a.type == "keyboard" && a.isSpecialKey && a.key == some tr.value
  else if tr.type == "click" then
    if a.type == "mouse_click" then
      numLe (getIdx (parseNums ',' tr.value) 0) a.x
        && numLe a.x (numAdd (getIdx (parseNums ',' tr.value) 0)
            (getIdx (parseNums ',' tr.value) 2))
        && numLe (getIdx (parseNums ',' tr.value) 1) a.y
        && numLe a.y (numAdd (getIdx (parseNums ',' tr.value) 1)
            (getIdx (parseNums ',' tr.value) 3))
    else false
  else false

/-- The inner trigger loop of client `checkTriggers` (lines 216-270):
`shouldTrigger` starts false per task, the switch may set it, and
`if (shouldTrigger) { this.executeTask(task.id); break; }` fires once and
leaves the loop at the first matching trigger. The Bool says whether
`executeTask` was invoked for this task. -/
def taskFires (now : Nat) (a : Activity) : List Trigger → Bool
  | [] => false
  | tr :: rest =>
    if clientTriggerMatches now a tr then true else taskFires now a rest

/-- The outer task loop of client `checkTriggers` (lines 212-272), returning
the tasks for which `executeTask` was invoked, in evaluation order; inactive
tasks are skipped by the `continue`. -/
def checkTriggersClient (now : Nat) (a : Activity) :
    List AutomationTask → List AutomationTask
  | [] => []
  | t :: rest =>
    if t.isActive then
      if taskFires now a t.triggers then t :: checkTriggersClient now a rest
      else checkTriggersClient now a rest
    else checkTriggersClient now a rest

/-- Server `activityMatchesTrigger` (server modules/automationManager.ts lines
103-143). Unlike the client variant, the `time` case requires a `system`
activity carrying a (truthy) timestamp and compares the wall-clock hour and
minute of that timestamp with the trigger's `hh:mm`. -/
def activityMatchesTrigger (a : Activity) (tr : Trigger) : Bool :=
  if tr.type == "time" then
    match a.timestamp with
    | none => false
    | some t =>
      if a.type == "system" then
        numEq (getIdx (parseNums ':' tr.value) 0) (Int.ofNat (getHours t))
          && numEq (getIdx (parseNums ':' tr.value) 1) (Int.ofNat (getMinutes t))
      else false
  else if tr.type == "mouse" then
    if a.type == "screen_capture" then
      match a.mousePosition with
      | some pos =>
        numAbsLe pos.1 (getIdx (parseNums ',' tr.value) 0) 20
          && numAbsLe pos.2 (getIdx (parseNums ',' tr.value) 1) 20
      | none => false
    else false
  else if tr.type == "keyboard" then
    a.type == "keyboard" && a.isSpecialKey && a.key == some tr.value
  else if tr.type == "click" then
    if a.type == "mouse_click" then
      numLe (getIdx (parseNums ',' tr.value) 0) a.x
        && numLe a.x (numAdd (getIdx (parseNums ',' tr.value) 0)
            (getIdx (parseNums ',' tr.value) 2))
        && numLe (getIdx (parseNums ',' tr.value) 1) a.y
        && numLe a.y (numAdd (getIdx (parseNums ',' tr.value) 1)
            (getIdx (parseNums ',' tr.value) 3))
    else false
  else false

/-- Server `checkTriggers` (lines 41-63): scan the tasks in order, skip
inactive ones, and return the first task one of whose triggers matches the
activity; `none` when no task fires. -/
def checkTriggersServer (a : Activity) : List AutomationTask → Option AutomationTask
  | [] => none
  | t :: rest =>
    if t.isActive then
      if t.triggers.any (activityMatchesTrigger a) then some t
      else checkTriggersServer a rest
    else checkTriggersServer a rest

def timeTrEx : Trigger := ⟨"time", "14:30"⟩

def sysActEx : Activity := { type := "system", timestamp := some 870 }

def kbActEx : Activity :=
  { type := "keyboard", isSpecialKey := true, key := some "F5" }

def timeTaskEx : AutomationTask := { id := 7, triggers := [timeTrEx] }

def clickActEx : Activity := { type := "mouse_click", x := some 5, y := some 5 }

def inactiveTaskEx : AutomationTask :=
  { id := 1, triggers := [⟨"click", "0,0,10,10"⟩], isActive := false }

def twoTrigTaskEx : AutomationTask :=
  { id := 2, triggers := [⟨"click", "0,0,10,10"⟩, ⟨"click", "1,1,10,10"⟩],
    isActive := true }

/-- The client AutomationManager's mutable state touched by
`checkForPatterns`: history, tasks, suggestions, the ambient wall clock
(frozen here; it only feeds suggestion ids/timestamps and the client time
trigger), and a log of the fire-and-forget `executeTask` invocations issued
by `checkTriggers`. -/
structure ManagerState where
  activityHistory : List Activity := []
  tasks : List AutomationTask := []
  suggestions : List Suggestion := []
  now : Nat := 0
  firedTaskIds : List Nat := []
deriving DecidableEq

/-- `checkForPatterns` (client automationManager.ts lines 59-73): append to
history (trimmed to 1000), run `detectPatterns` over it, then `checkTriggers`
on the incoming activity. -/
def checkForPatterns (s : ManagerState) (a : Activity) : ManagerState :=
  let history := pushHistory s.activityHistory a
  { s with
    activityHistory := history,
    suggestions := detectPatterns s.now history s.suggestions,
    firedTaskIds :=
      s.firedTaskIds ++ (checkTriggersClient s.now a s.tasks).map (fun t => t.id) }

/-- A whole arrival sequence fed through `checkForPatterns`. -/
def runEvents (s : ManagerState) (evs : List Activity) : ManagerState :=
  evs.foldl checkForPatterns s

def clickEx : Activity := { type := "mouse_click", x := some 100, y := some 200 }

def sysFillerEx : Activity := { type := "system" }

/-- The outcome of one client `executeTask` call: the tasks array after the
call, the returned boolean, and the `(success, message)` execution-result
notifications emitted to the `task` listeners. -/
structure ExecOutcome where
  tasks : List AutomationTask
  returned : Bool
  notifications : List (Bool × String)
deriving DecidableEq

/-- `task.executionCount++` applied through the reference `tasks.find`
returned — the first task with the given id. -/
def bumpFirst (taskId : Nat) : List AutomationTask → List AutomationTask
  | [] => []
  | t :: rest =>
    if t.id == taskId then
      { t with executionCount := t.executionCount + 1 } :: rest
    else t :: bumpFirst taskId rest

/-- Client `executeTask` (automationManager.ts lines 325-370). `collabOk`
abstracts the step-execution collaborator (the POST to
`/api/automation-tasks/:id/execute`): `true` when the response is ok, `false`
when the fetch throws or the response is not ok (both land in the catch).
Unknown id: log and return false. Success path: bump the found task's
`executionCount`, notify success, return true. Failure path: notify failure
and return false — the count is not touched, and the client task carries no
last-execution timestamp at all. -/
def executeTask (tasks : List AutomationTask) (taskId : Nat) (collabOk : Bool) :
    ExecOutcome :=
  match tasks.find? (fun t => t.id == taskId) with
  | none => ⟨tasks, false, []⟩
  | some task =>
    if collabOk then
      ⟨bumpFirst taskId tasks, true,
       [(true, "Task \x22" ++ task.name ++ "\x22 executed successfully")]⟩
    else
      ⟨tasks, false, [(false, "Failed to execute task \x22" ++ task.name ++ "\x22")]⟩

def execTaskEx : AutomationTask := { id := 1, name := "t", executionCount := 5 }

/-- The Orchestrator settings consumed by `start`/`stop`
(activityTracker.ts lines 10-24). -/
structure TrackerSettings where
  captureInterval : Nat := 1000
  enableKeyLogging : Bool := true
  enableScreenCapture : Bool := true
  enableAutomationSuggestions : Bool := true
deriving DecidableEq

/-- The Orchestrator state together with its timer environment:
`captureTimer` is `this.captureInterval` (a timer id, or undefined),
`activeTimers` the interval timers currently live for the page,
`nextTimerId` the id `window.setInterval` hands out next, `kbRunning` the
keyboard logger state, and `notes` the 'activity' notifications emitted. -/
structure TrackerSys where
  isTracking : Bool := false
  captureTimer : Option Nat := none
  nextTimerId : Nat := 0
  activeTimers : List Nat := []
  kbRunning : Bool := false
  notes : List String := []
deriving DecidableEq

/-- `ActivityTracker.start` (activityTracker.ts lines 64-83): returns at once
while already tracking; otherwise flips the flag, starts the keyboard logger
when enabled, installs exactly one capture interval timer when screen capture
is enabled, and notifies listeners. -/
def start (cfg : TrackerSettings) (s : TrackerSys) : TrackerSys :=
  if s.isTracking then s
  else
    let s1 := { s with isTracking := true }
    let s2 := if cfg.enableKeyLogging then { s1 with kbRunning := true } else s1
    let s3 :=
      if cfg.enableScreenCapture then
        { s2 with
          captureTimer := some s2.nextTimerId,
          activeTimers := s2.activeTimers ++ [s2.nextTimerId],
          nextTimerId := s2.nextTimerId + 1 }
      else s2
    { s3 with notes := s3.notes ++ ["Activity tracking started"] }

/-- `ActivityTracker.stop` (lines 88-105): returns at once while stopped;
otherwise flips the flag, clears the capture interval timer if one is set,
stops the keyboard logger, and notifies listeners. -/
def stop (s : TrackerSys) : TrackerSys :=
  if s.isTracking then
    let s1 := { s with isTracking := false }
    let s2 :=
      match s1.captureTimer with
      | some tid =>
        { s1 with activeTimers := s1.activeTimers.erase tid, captureTimer := none }
      | none => s1
    let s3 := { s2 with kbRunning := false }
    { s3 with notes := s3.notes ++ ["Activity tracking stopped"] }
  else s

/-- The body of the `forEach` in `notifyListeners` (activityTracker.ts lines
252-262 and automationManager.ts lines 437-447): the callback runs inside
try/catch, so a throwing callback is logged as its error outcome and the loop
body itself never throws — the outer `Except` (what the body can propagate)
is always `ok`. -/
def tryCallback {α ε σ : Type} (cb : α → Except ε σ) (d : α) : Except ε (Except ε σ) :=
  match cb d with
  | Except.ok v => Except.ok (Except.ok v)
  | Except.error e => Except.ok (Except.error e)

/-- `notifyListeners`: run every registered callback in registration order
under the per-callback try/catch, collecting each callback's outcome. The
traversal is written in exception-propagation style: an uncaught exception in
the loop body would abort the remaining callbacks and surface as
`Except.error`. -/
def notifyListeners {α ε σ : Type} (cbs : List (α → Except ε σ)) (d : α) :
    Except ε (List (Except ε σ)) :=
  match cbs with
  | [] => Except.ok []
  | cb :: rest =>
    match tryCallback cb d with
    | Except.error e => Except.error e
    | Except.ok r =>
      match notifyListeners rest d with
      | Except.error e => Except.error e
      | Except.ok rs => Except.ok (r :: rs)


lemma lastN_length (n : Nat) (l : List α) : (lastN n l).length = min n l.length := by
  simp only [lastN, List.length_drop]
  omega

lemma lastN_of_length_le (n : Nat) (l : List α) (h : l.length ≤ n) : lastN n l = l := by
  have h0 : l.length - n = 0 := by omega
  simp [lastN, h0]

lemma pushHistory_lastN (l : List Activity) (a : Activity) :
    pushHistory (lastN 1000 l) a = lastN 1000 (l ++ [a]) := by
  by_cases h : l.length ≤ 999
  · rw [lastN_of_length_le 1000 l (by omega),
        lastN_of_length_le 1000 (l ++ [a]) (by simp; omega)]
    simp [pushHistory]
    omega
  · have hlen : (lastN 1000 l).length = 1000 := by rw [lastN_length]; omega
    have hcond : ((lastN 1000 l) ++ [a]).length > 1000 := by simp [hlen]
    show (if ((lastN 1000 l) ++ [a]).length > 1000
          then lastN 1000 ((lastN 1000 l) ++ [a]) else (lastN 1000 l) ++ [a])
        = lastN 1000 (l ++ [a])
    rw [if_pos hcond]
    simp only [lastN, List.length_drop, List.length_append, List.length_cons,
      List.length_nil]
    have h1 : l.length - (l.length - 1000) + (0 + 1) - 1000 = 1 := by omega
    have h2 : l.length + (0 + 1) - 1000 = l.length + 1 - 1000 := by omega
    rw [h1, h2]
    rw [List.drop_append_of_le_length (by simp [List.length_drop]; omega),
        List.drop_append_of_le_length (by omega),
        List.drop_drop]
    have h3 : l.length - 1000 + 1 = l.length + 1 - 1000 := by omega
    rw [h3]

lemma historyAfter_eq (evs : List Activity) : historyAfter evs = lastN 1000 evs := by
  induction evs using List.reverseRecOn with
  | nil => simp [historyAfter, lastN]
  | append_singleton xs x ih =>
    rw [historyAfter, List.foldl_append, List.foldl_cons, List.foldl_nil]
    rw [show xs.foldl pushHistory [] = historyAfter xs from rfl, ih]
    exact pushHistory_lastN xs x

/-- C4: after each append the Event History Buffer holds exactly the most
recent `min 1000 total` appended events, in arrival order (the length-bounded
suffix of the arrival sequence), so its length is `min 1000 total`, overflow
evicts only from the head, and nothing is reordered. -/
theorem c4_history_buffer_bound (evs : List Activity) :
    historyAfter evs = evs.drop (evs.length - 1000) ∧
    (historyAfter evs).length = min 1000 evs.length := by
  refine ⟨historyAfter_eq evs, ?_⟩
  rw [historyAfter_eq evs, lastN_length]

lemma createSuggestion_length_le (now : Nat) (sugs : List Suggestion)
    (d : SuggestionData) (h : sugs.length ≤ 10) :
    (createSuggestion now sugs d).length ≤ 10 := by
  simp only [createSuggestion]
  split
  · simp only [List.length_drop, List.length_append, List.length_cons,
      List.length_nil]
    omega
  · next hlt =>
    simp only [List.length_append, List.length_cons, List.length_nil] at hlt ⊢
    omega

lemma foldl_createSuggestion_le (now : Nat) (ds : List SuggestionData)
    (sugs : List Suggestion) (h : sugs.length ≤ 10) :
    (ds.foldl (createSuggestion now) sugs).length ≤ 10 := by
  induction ds generalizing sugs with
  | nil => simpa using h
  | cons d ds ih =>
    exact ih (createSuggestion now sugs d) (createSuggestion_length_le now sugs d h)

/-- C8: the Suggestion Store never holds more than 10 suggestions, and when a
candidate is accepted into a full store of 10, the result is exactly the
previous store minus its single oldest (head) entry, unchanged in order, plus
the new suggestion at the tail — FIFO eviction of one element. -/
theorem c8_suggestion_store_bound :
    (∀ (now : Nat) (ds : List SuggestionData),
      ((ds.foldl (createSuggestion now) []).length ≤ 10))
    ∧ (∀ (now : Nat) (sugs : List Suggestion) (d : SuggestionData),
        sugs.length = 10 →
        createSuggestion now sugs d = sugs.tail ++ [mkSuggestion now d]
        ∧ (createSuggestion now sugs d).length = 10) := by
  constructor
  · intro now ds
    exact foldl_createSuggestion_le now ds [] (by simp)
  · intro now sugs d h
    have hc : (sugs ++ [mkSuggestion now d]).length > 10 := by simp [h]
    have he : createSuggestion now sugs d = sugs.tail ++ [mkSuggestion now d] := by
      show (if (sugs ++ [mkSuggestion now d]).length > 10
            then (sugs ++ [mkSuggestion now d]).drop 1
            else sugs ++ [mkSuggestion now d]) = sugs.tail ++ [mkSuggestion now d]
      rw [if_pos hc, List.drop_append_of_le_length (by omega), List.drop_one]
    refine ⟨he, ?_⟩
    rw [he]
    simp [h]

theorem c8_suggestion_store_bound_witness :
    createSuggestion 1 (List.replicate 10 (mkSuggestion 0 d0ex)) d1ex
      = (List.replicate 10 (mkSuggestion 0 d0ex)).tail ++ [mkSuggestion 1 d1ex] :=
  (c8_suggestion_store_bound.2 1 (List.replicate 10 (mkSuggestion 0 d0ex)) d1ex
    (by simp)).1

lemma keyCount_eq_zero_no_existing (sugs : List Suggestion) (ty sub : String)
    (h : keyCount sugs ty sub = 0) : hasExistingSuggestion sugs ty sub = false := by
  simp only [keyCount, List.length_eq_zero, List.filter_eq_nil_iff] at h
  simp only [hasExistingSuggestion, List.any_eq_false]
  exact h

lemma keyCount_append (l1 l2 : List Suggestion) (ty sub : String) :
    keyCount (l1 ++ l2) ty sub = keyCount l1 ty sub + keyCount l2 ty sub := by
  simp [keyCount, List.filter_append]

lemma keyCount_drop_le (sugs : List Suggestion) (n : Nat) (ty sub : String) :
    keyCount (sugs.drop n) ty sub ≤ keyCount sugs ty sub :=
  ((List.drop_sublist n sugs).filter _).length_le

lemma keyCount_mk_self (now : Nat) (d : SuggestionData) :
    keyCount [mkSuggestion now d] d.type d.subtype = 1 := by
  simp [keyCount, mkSuggestion, List.filter]

lemma hasExisting_iff_keyCount_pos (sugs : List Suggestion) (ty sub : String) :
    hasExistingSuggestion sugs ty sub = true ↔ 0 < keyCount sugs ty sub := by
  constructor
  · intro h
    obtain ⟨s, hs, hp⟩ := List.any_eq_true.mp h
    exact List.length_pos.mpr (List.ne_nil_of_mem (List.mem_filter.mpr ⟨hs, hp⟩))
  · intro h
    obtain ⟨s, hs⟩ := List.exists_mem_of_ne_nil _ (List.length_pos.mp h)
    obtain ⟨hmem, hp⟩ := List.mem_filter.mp hs
    exact List.any_eq_true.mpr ⟨s, hmem, hp⟩

/-- C5: suggestion dedup. If a suggestion with a given `(detectorType,
detectorKey)` key is already stored, a later same-key candidate leaves the
store unchanged; and starting from a store holding no suggestion with that
key, two same-key submissions store exactly one suggestion with the key — the
second submission changes nothing. -/
theorem c5_suggestion_dedup (now now2 : Nat) (sugs : List Suggestion)
    (d d2 : SuggestionData) (hty : d2.type = d.type) (hsub : d2.subtype = d.subtype) :
    (hasExistingSuggestion sugs d.type d.subtype = true →
      submitCandidate now2 sugs d2 = sugs)
    ∧ (keyCount sugs d.type d.subtype = 0 →
      submitCandidate now2 (submitCandidate now sugs d) d2 = submitCandidate now sugs d
      ∧ keyCount (submitCandidate now sugs d) d.type d.subtype = 1) := by
  constructor
  · intro h
    simp [submitCandidate, hty, hsub, h]
  · intro h0
    have hno : hasExistingSuggestion sugs d.type d.subtype = false :=
      keyCount_eq_zero_no_existing sugs d.type d.subtype h0
    have hs1 : submitCandidate now sugs d = createSuggestion now sugs d := by
      simp [submitCandidate, hno]
    have hcount : keyCount (createSuggestion now sugs d) d.type d.subtype = 1 := by
      simp only [createSuggestion]
      split
      · next hlen =>
        simp only [List.length_append, List.length_cons, List.length_nil] at hlen
        rw [List.drop_append_of_le_length (by omega), keyCount_append]
        have hz : keyCount (sugs.drop 1) d.type d.subtype = 0 :=
          Nat.le_zero.mp (h0 ▸ keyCount_drop_le sugs 1 d.type d.subtype)
        rw [hz, keyCount_mk_self]
      · rw [keyCount_append, h0, keyCount_mk_self]
    have hmem : hasExistingSuggestion (createSuggestion now sugs d) d.type d.subtype = true :=
      (hasExisting_iff_keyCount_pos (createSuggestion now sugs d) d.type d.subtype).mpr
        (by omega)
    refine ⟨?_, hs1 ▸ hcount⟩
    rw [hs1]
    simp [submitCandidate, hty, hsub, hmem]

theorem c5_suggestion_dedup_witness :
    submitCandidate 2 (submitCandidate 1 [] d0ex) d0ex = submitCandidate 1 [] d0ex
    ∧ keyCount (submitCandidate 1 [] d0ex) d0ex.type d0ex.subtype = 1 :=
  (c5_suggestion_dedup 1 2 [] d0ex d0ex rfl rfl).2 (by simp [keyCount])

lemma nodup_concat_of_not_mem {acc : List String} {s : String}
    (hnd : acc.Nodup) (hmem : s ∉ acc) : (acc ++ [s]).Nodup := by
  rw [List.nodup_append]
  refine ⟨hnd, List.nodup_singleton s, ?_⟩
  intro x hx hxs
  rw [List.mem_singleton] at hxs
  exact hmem (hxs ▸ hx)

lemma collectApps_length (l : List Activity) (acc : List String)
    (hnd : acc.Nodup) (hle : acc.length ≤ 3) :
    (collectApps l acc).length
      = min 3 (acc.toFinset ∪ (l.filterMap truthyName).toFinset).card := by
  induction l generalizing acc with
  | nil =>
    rw [show collectApps [] acc = acc from rfl]
    simp only [List.filterMap_nil, List.toFinset_nil, Finset.union_empty]
    rw [List.toFinset_card_of_nodup hnd]
    omega
  | cons a rest ih =>
    by_cases hlt : acc.length < 3
    · cases htn : truthyName a with
      | none =>
        rw [show collectApps (a :: rest) acc = collectApps rest acc from by
          simp [collectApps, hlt, htn]]
        rw [ih acc hnd hle, List.filterMap_cons_none htn]
      | some s =>
        by_cases hmem : s ∈ acc
        · rw [show collectApps (a :: rest) acc = collectApps rest acc from by
            simp [collectApps, hlt, htn, hmem]]
          rw [ih acc hnd hle, List.filterMap_cons_some htn, List.toFinset_cons,
            Finset.union_insert, Finset.insert_eq_self.mpr
              (Finset.mem_union_left _ (List.mem_toFinset.mpr hmem))]
        · rw [show collectApps (a :: rest) acc = collectApps rest (acc ++ [s]) from by
            simp [collectApps, hlt, htn, hmem]]
          rw [ih (acc ++ [s]) (nodup_concat_of_not_mem hnd hmem) (by simp; omega)]
          rw [List.filterMap_cons_some htn]
          have hu : (acc ++ [s]).toFinset ∪ (rest.filterMap truthyName).toFinset
              = acc.toFinset ∪ (s :: rest.filterMap truthyName).toFinset := by
            ext x
            simp only [List.toFinset_append, List.toFinset_cons, Finset.mem_union,
              Finset.mem_insert, List.mem_toFinset, List.mem_singleton]
            tauto
          rw [hu]
    · have h3 : acc.length = 3 := by omega
      rw [show collectApps (a :: rest) acc = acc from by simp [collectApps, hlt]]
      have hcard : 3
          ≤ (acc.toFinset ∪ ((a :: rest).filterMap truthyName).toFinset).card := by
        have hsub := Finset.card_le_card
          (show acc.toFinset
              ⊆ acc.toFinset ∪ ((a :: rest).filterMap truthyName).toFinset
            from Finset.subset_union_left)
        rw [List.toFinset_card_of_nodup hnd, h3] at hsub
        exact hsub
      omega

lemma toFinset_filterMap_reverse (l : List Activity) :
    (l.reverse.filterMap truthyName).toFinset = (l.filterMap truthyName).toFinset := by
  ext x
  simp [List.mem_filterMap]

lemma recentApps_length (history : List Activity) :
    (recentAppsOf history).length = min 3 (appNames history).toFinset.card := by
  rw [recentAppsOf, collectApps_length ((history.filter isAppActivity).reverse) []
    List.nodup_nil (by simp)]
  simp [toFinset_filterMap_reverse, appNames]

/-- C7: the Application-Sequence Detector. Whenever the history carries at
least 3 distinct (truthy) application names among `application` events and
`screen_capture` events with an application name, the backward scan stops with
exactly 3 collected names and the detector submits exactly one candidate via
`createSuggestion`, keyed `(app_sequence, the collected names joined in
order)`, with confidence 0.65 (assuming that key is not already stored); with
fewer than 3 distinct names it leaves the store untouched. -/
theorem c7_app_sequence_detector (now : Nat) (history : List Activity)
    (sugs : List Suggestion) :
    (3 ≤ (appNames history).toFinset.card →
      hasExistingSuggestion sugs "app_sequence"
          (String.intercalate "," (recentAppsOf history)) = false →
      (recentAppsOf history).length = 3
      ∧ detectApplicationPatterns now history sugs
          = createSuggestion now sugs
              ⟨"Application Sequence",
               "You often open " ++ String.intercalate ", " (recentAppsOf history)
                 ++ " together. Create a workflow?",
               0.65, lastN 5 (history.filter isAppActivity), "app_sequence",
               String.intercalate "," (recentAppsOf history)⟩)
    ∧ ((appNames history).toFinset.card < 3 →
      detectApplicationPatterns now history sugs = sugs) := by
  have hlen := recentApps_length history
  have hfm : (appNames history).toFinset.card
      ≤ (history.filter isAppActivity).length := by
    calc (appNames history).toFinset.card
        ≤ (appNames history).length := List.toFinset_card_le (appNames history)
      _ ≤ (history.filter isAppActivity).length := List.length_filterMap_le _ _
  constructor
  · intro hcard hded
    have h3 : (recentAppsOf history).length = 3 := by omega
    have hge : ¬ ((history.filter isAppActivity).length < 3) := by omega
    refine ⟨h3, ?_⟩
    rw [show recentAppsOf history
        = collectApps (history.filter isAppActivity).reverse [] from rfl] at h3 hded ⊢
    simp only [detectApplicationPatterns]
    rw [if_neg hge, if_pos h3, if_neg (by rw [hded]; exact Bool.false_ne_true)]
  · intro hcard
    simp only [detectApplicationPatterns]
    by_cases hlt : (history.filter isAppActivity).length < 3
    · rw [if_pos hlt]
    · rw [if_neg hlt]
      have hne : ¬ ((collectApps (history.filter isAppActivity).reverse []).length = 3) := by
        rw [show collectApps (history.filter isAppActivity).reverse []
          = recentAppsOf history from rfl]
        omega
      rw [if_neg hne]

theorem c7_app_sequence_detector_witness :
    (recentAppsOf histEx).length = 3
    ∧ detectApplicationPatterns 5 histEx []
        = createSuggestion 5 []
            ⟨"Application Sequence",
             "You often open " ++ String.intercalate ", " (recentAppsOf histEx)
               ++ " together. Create a workflow?",
             0.65, lastN 5 (histEx.filter isAppActivity), "app_sequence",
             String.intercalate "," (recentAppsOf histEx)⟩ :=
  (c7_app_sequence_detector 5 histEx []).1 (by decide) rfl

/-- C3 (amended): the server-side Trigger Matcher matches a time trigger
parsing to `hh:mm` exactly on `system` events that carry a timestamp whose
wall-clock hour and minute are `hh` and `mm`, and the server trigger scan
only returns an active task one of whose triggers matches; the client-side
variant instead compares the ambient wall clock against `hh:mm` and is
independent of the incoming activity, so there any event kind can fire a time
trigger. -/
theorem c3_time_trigger_matching (a : Activity) (tr : Trigger) (hh mm : Int)
    (hty : tr.type = "time")
    (h0 : getIdx (parseNums ':' tr.value) 0 = some hh)
    (h1 : getIdx (parseNums ':' tr.value) 1 = some mm) :
    (activityMatchesTrigger a tr = true ↔
      a.type = "system" ∧ ∃ t, a.timestamp = some t
        ∧ hh = Int.ofNat (getHours t) ∧ mm = Int.ofNat (getMinutes t))
    ∧ (∀ now : Nat, clientTriggerMatches now a tr = true ↔
        hh = Int.ofNat (getHours now) ∧ mm = Int.ofNat (getMinutes now))
    ∧ (∀ tasks task, checkTriggersServer a tasks = some task →
        task.isActive = true
        ∧ ∃ tr2 ∈ task.triggers, activityMatchesTrigger a tr2 = true) := by
  refine ⟨?_, ?_, ?_⟩
  · simp only [activityMatchesTrigger, hty]
    cases ha : a.timestamp with
    | none =>
      simp [ha]
    | some t =>
      by_cases hsys : a.type = "system"
      · simp [ha, hsys, numEq, h0, h1]
      · simp [ha, hsys]
  · intro now
    simp [clientTriggerMatches, hty, numEq, h0, h1]
  · intro tasks task h
    induction tasks with
    | nil => exact absurd h (by simp [checkTriggersServer])
    | cons t rest ih =>
      by_cases hA : t.isActive
      · by_cases hM : t.triggers.any (activityMatchesTrigger a) = true
        · have : some t = some task := by
            rw [← h]
            simp [checkTriggersServer, hA, hM]
          obtain ⟨tr2, htr2, hmat⟩ := List.any_eq_true.mp hM
          cases this
          exact ⟨hA, tr2, htr2, hmat⟩
        · apply ih
          rw [← h]
          simp [checkTriggersServer, hA, hM]
      · apply ih
        rw [← h]
        simp [checkTriggersServer, hA]

theorem c3_time_trigger_matching_witness :
    activityMatchesTrigger sysActEx timeTrEx = true :=
  (c3_time_trigger_matching sysActEx timeTrEx 14 30 rfl (by decide) (by decide)).1.mpr
    ⟨rfl, 870, rfl, by decide, by decide⟩

/-- C3 counterexample: in the client trigger engine (the component that
actually invokes the executor), a `keyboard` event fires a task carrying time
trigger "14:30" whenever the ambient clock reads 14:30 — an event that is not
a `system` event matches a time trigger, contradicting the claim that only
`system` events carrying a matching timestamp can. -/
theorem c3_time_trigger_counterexample :
    checkTriggersClient 870 kbActEx [timeTaskEx] = [timeTaskEx]
    ∧ kbActEx.type = "keyboard" := by
  constructor
  · decide
  · rfl

lemma taskFires_eq_any (now : Nat) (a : Activity) (l : List Trigger) :
    taskFires now a l = l.any (clientTriggerMatches now a) := by
  induction l with
  | nil => rfl
  | cons tr rest ih =>
    simp only [taskFires, List.any_cons, ih]
    by_cases h : clientTriggerMatches now a tr <;> simp [h]

/-- C6: the client trigger engine fires exactly the active tasks having some
matching trigger, one invocation per task and in task order (the inner loop
breaks at the first matching trigger, so a task with several matching
triggers still fires once); tasks are filtered independently of one another,
and an inactive task never fires. -/
theorem c6_one_execution_per_task (now : Nat) (a : Activity)
    (tasks : List AutomationTask) :
    checkTriggersClient now a tasks
      = tasks.filter
          (fun t => t.isActive && t.triggers.any (clientTriggerMatches now a))
    ∧ (∀ t, t ∈ checkTriggersClient now a tasks →
        t.isActive = true ∧ taskFires now a t.triggers = true)
    ∧ (∀ t, t.isActive = false → t ∉ checkTriggersClient now a tasks)
    ∧ (∀ t, (checkTriggersClient now a tasks).count t ≤ tasks.count t) := by
  have hfil : checkTriggersClient now a tasks
      = tasks.filter
          (fun t => t.isActive && t.triggers.any (clientTriggerMatches now a)) := by
    induction tasks with
    | nil => rfl
    | cons t rest ih =>
      simp only [checkTriggersClient, List.filter_cons, taskFires_eq_any]
      by_cases hA : t.isActive
      · by_cases hM : t.triggers.any (clientTriggerMatches now a) = true
        · simp [hA, hM, ih, taskFires_eq_any]
        · simp [hA, hM, ih, taskFires_eq_any]
      · simp [hA, ih]
  have hmem : ∀ t, t ∈ checkTriggersClient now a tasks →
      t.isActive = true ∧ taskFires now a t.triggers = true := by
    intro t ht
    rw [hfil] at ht
    have := (List.mem_filter.mp ht).2
    rw [Bool.and_eq_true] at this
    exact ⟨this.1, by rw [taskFires_eq_any]; exact this.2⟩
  refine ⟨hfil, hmem, ?_, ?_⟩
  · intro t hin habs
    have := (hmem t habs).1
    rw [hin] at this
    exact Bool.false_ne_true this
  · intro t
    rw [hfil]
    exact (List.filter_sublist _).count_le t

theorem c6_one_execution_per_task_witness :
    checkTriggersClient 0 clickActEx [inactiveTaskEx, twoTrigTaskEx]
      = [twoTrigTaskEx] :=
  ((c6_one_execution_per_task 0 clickActEx [inactiveTaskEx, twoTrigTaskEx]).1).trans
    (by decide)

/-- C2 counterexample: starting from empty stores, feeding exactly 3
`mouse_click` events at the same location through `checkForPatterns` emits no
suggestion at all — `detectPatterns` returns early while the history holds
fewer than 10 events, so the claimed single `(repeated_sequence, mouse_click)`
suggestion with confidence 0.6 never appears. -/
theorem c2_three_clicks_counterexample :
    (runEvents {} (List.replicate 3 clickEx)).suggestions = []
    ∧ (runEvents {} (List.replicate 3 clickEx)).suggestions.length = 0 := by
  refine ⟨by decide, by decide⟩

/-- C2 (amended): the 10-event history threshold of `detectPatterns` must
first be met: after 7 filler `system` events, feeding the 3 same-location
`mouse_click` events yields exactly one suggestion, keyed
`(repeated_sequence, mouse_click)` with confidence 0.6. -/
theorem c2_repeated_clicks_amended :
    ((runEvents {} (List.replicate 7 sysFillerEx ++ List.replicate 3 clickEx)).suggestions.map
        (fun s => (s.metadataType, s.metadataSubtype, s.confidence)))
      = [("repeated_sequence", "mouse_click", 0.6)] := by
  rfl

/-- C1 counterexample: executing a task whose step collaborator fails leaves
its `executionCount` at 5, whereas the claim requires the increment (to 6) on
the failure path too; the call still returns a boolean (false) and emits the
failure notification instead of throwing. -/
theorem c1_executor_counterexample :
    (executeTask [execTaskEx] 1 false).tasks.map (fun t => t.executionCount) = [5]
    ∧ (executeTask [execTaskEx] 1 false).returned = false
    ∧ (executeTask [execTaskEx] 1 false).notifications.map Prod.fst = [false] := by
  refine ⟨rfl, rfl, rfl⟩

lemma bumpFirst_sum (taskId : Nat) (tasks : List AutomationTask)
    (task : AutomationTask)
    (hfind : tasks.find? (fun t => t.id == taskId) = some task) :
    ((bumpFirst taskId tasks).map (fun t => t.executionCount)).sum
      = ((tasks.map (fun t => t.executionCount)).sum) + 1 := by
  induction tasks with
  | nil => simp [List.find?] at hfind
  | cons t rest ih =>
    by_cases hid : (t.id == taskId) = true
    · simp [bumpFirst, hid]
      omega
    · have hfind2 : rest.find? (fun t => t.id == taskId) = some task := by
        rw [List.find?] at hfind
        simp only [hid] at hfind
        exact hfind
      simp only [bumpFirst, hid, if_false, Bool.false_eq_true, List.map_cons,
        List.sum_cons, ih hfind2]
      omega

/-- C1 (amended): for a task found by id, `executeTask` returns the
collaborator's success boolean rather than throwing, always emits exactly one
execution-result notification carrying that boolean, and increments the total
execution count by exactly one on the success path and by zero on the failure
path (the client task model has no last-execution timestamp to set; the
server-side bookkeeping `updateAutomationTaskExecutionCount` likewise runs
only on the success path). -/
theorem c1_executor_bookkeeping (tasks : List AutomationTask) (taskId : Nat)
    (collabOk : Bool) (task : AutomationTask)
    (hfind : tasks.find? (fun t => t.id == taskId) = some task) :
    (executeTask tasks taskId collabOk).returned = collabOk
    ∧ (executeTask tasks taskId collabOk).notifications.map Prod.fst = [collabOk]
    ∧ ((executeTask tasks taskId collabOk).tasks.map (fun t => t.executionCount)).sum
        = ((tasks.map (fun t => t.executionCount)).sum)
            + (if collabOk then 1 else 0) := by
  cases collabOk
  · simp [executeTask, hfind]
  · simp [executeTask, hfind, bumpFirst_sum taskId tasks task hfind]

theorem c1_executor_bookkeeping_witness :
    (executeTask [execTaskEx] 1 true).returned = true
    ∧ (executeTask [execTaskEx] 1 true).notifications.map Prod.fst = [true]
    ∧ ((executeTask [execTaskEx] 1 true).tasks.map (fun t => t.executionCount)).sum
        = ((([execTaskEx] : List AutomationTask).map (fun t => t.executionCount)).sum)
            + (if true then 1 else 0) :=
  c1_executor_bookkeeping [execTaskEx] 1 true execTaskEx (by decide)

/-- C9: `start` while Tracking and `stop` while Stopped are strict no-ops
(and both are total functions — there is no error path), and starting from a
stopped state with no live capture timer installs exactly one capture timer,
which a second `start` does not duplicate: it changes nothing at all. -/
theorem c9_start_stop_idempotent (cfg : TrackerSettings) (s : TrackerSys) :
    (s.isTracking = true → start cfg s = s)
    ∧ (s.isTracking = false → stop s = s)
    ∧ (s.isTracking = false → s.activeTimers = [] →
        cfg.enableScreenCapture = true →
        (start cfg (start cfg s)).activeTimers.length = 1
        ∧ start cfg (start cfg s) = start cfg s) := by
  have hstart_noop : ∀ s2 : TrackerSys, s2.isTracking = true → start cfg s2 = s2 := by
    intro s2 h2
    simp [start, h2]
  refine ⟨hstart_noop s, ?_, ?_⟩
  · intro h
    simp [stop, h]
  · intro h ht hsc
    have htrack : (start cfg s).isTracking = true := by
      cases hkl : cfg.enableKeyLogging <;> simp [start, h, hkl, hsc]
    have hsecond := hstart_noop (start cfg s) htrack
    refine ⟨?_, hsecond⟩
    rw [hsecond]
    cases hkl : cfg.enableKeyLogging <;> simp [start, h, hkl, hsc, ht]

theorem c9_start_stop_idempotent_witness :
    (start {} (start {} ({} : TrackerSys))).activeTimers.length = 1
    ∧ stop ({} : TrackerSys) = {} :=
  ⟨((c9_start_stop_idempotent {} {}).2.2 rfl rfl rfl).1,
   (c9_start_stop_idempotent {} {}).2.1 rfl⟩

lemma tryCallback_eq {α ε σ : Type} (cb : α → Except ε σ) (d : α) :
    tryCallback cb d = Except.ok (cb d) := by
  cases hc : cb d <;> simp [tryCallback, hc]

/-- C10: notifying listeners invokes every registered callback exactly once,
in registration order — the traversal returns the ordered list of every
callback's own outcome — and never propagates an exception to the notifying
caller, even when some callbacks throw: each thrown error is caught inside
the loop, and the remaining listeners still run. -/
theorem c10_notify_listeners_resilient {α ε σ : Type} (cbs : List (α → Except ε σ)) (d : α) :
    notifyListeners cbs d = Except.ok (cbs.map (fun cb => cb d)) := by
  induction cbs with
  | nil => rfl
  | cons cb rest ih =>
    simp [notifyListeners, tryCallback_eq, ih]

end SmartTracker

